import Mathlib

/-!
Verification of the media-tracker migration/export scripts.

This file gives a shallow embedding of the pure cores of
`migrate_simkl_to_trakt.py` (the transformer `transform_to_trakt` and the
batch uploader `upload_to_trakt`) and of `export_simkl_to_csv.py` (the
episodic flattener `process_shows`), and proves the specified properties
about them.

Modelling conventions:
* Python dicts become association lists `List (String × _)` with
  first-match lookup `dget` (Python dict keys are unique, so first match
  is the only match).
* JSON scalar values found in identifier maps become `Value`
  (string / int / null); Python truthiness is `truthy`.
* `int(x)` becomes `pyInt`, returning `Except String Int`; failure models
  the `ValueError`/`TypeError` that `int` raises on non-numeric input.
* A function whose Python body can raise becomes an `Except`-valued
  function; a caught exception becomes a handled `Except.error`.
* The uploader's side effects (HTTP submission, console report, sleep)
  become an explicit trace of `UploadEvent`s; the outcome of each HTTP
  submission is supplied by an oracle `res : Nat → Except String Added`
  indexed by batch number, so claims can quantify over all
  success/failure patterns.
-/

/-- A scalar value stored in an identifier mapping: a JSON string, integer,
or null, as delivered by the source service. -/
inductive Value where
  | str : String → Value
  | int : Int → Value
  | null : Value
deriving DecidableEq, Repr

/-- Python truthiness for `Value`: empty string, zero and `None` are falsy. -/
def truthy : Value → Bool
  | .str s => s ≠ ""
  | .int n => n ≠ 0
  | .null => false

/-- Value of a nonempty all-digit character list, most significant first. -/
def digitsVal (cs : List Char) : Option Nat :=
  if cs ≠ [] ∧ cs.all Char.isDigit then
    some (cs.foldl (fun a c => a * 10 + (c.toNat - 48)) 0)
  else
    none

/-- Strip leading and trailing whitespace from a character list. -/
def trimChars (cs : List Char) : List Char :=
  ((cs.dropWhile Char.isWhitespace).reverse.dropWhile Char.isWhitespace).reverse

/-- Python `int(string)`: surrounding whitespace is stripped, an optional
sign precedes a nonempty digit run.  (Underscore digit separators are not
modelled; no input in this development uses them.) -/
def parsePyInt (s : String) : Option Int :=
  match trimChars s.toList with
  | '-' :: rest => (digitsVal rest).map (fun n => -(n : Int))
  | '+' :: rest => (digitsVal rest).map (fun n => (n : Int))
  | cs => (digitsVal cs).map (fun n => (n : Int))

/-- Python `int(v)`.  On an int it is the identity; on a string it parses;
on anything else (here: null) it raises. -/
def pyInt : Value → Except String Int
  | .int n => .ok n
  | .str s =>
    match parsePyInt s with
    | some n => .ok n
    | none => .error ("invalid literal for int() with base 10: " ++ s)
  | .null => .error "int() argument must not be None"

/-- Python `d.get(k)` on an association-list dict: first matching key. -/
def dget {α : Type} : List (String × α) → String → Option α
  | [], _ => none
  | (k', v) :: rest, k => if k' = k then some v else dget rest k

/-- An identifier mapping (`ids` object) of the source service: scheme
name ↦ value. -/
abbrev IdsMap := List (String × Value)

/-- One raw entry of a source category list.  `cats` holds the nested
per-category objects keyed by category name (the Python code reads
`item.get(item_type, {}).get('ids', {})`; the two `get`s are collapsed,
so the stored value is that descriptor's identifier mapping — a missing
descriptor and a descriptor without an `ids` key are observationally the
same empty mapping).  `last_watched_at` is the optional timestamp. -/
structure SimklItem where
  cats : List (String × IdsMap)
  last_watched_at : Option String
deriving DecidableEq, Repr

/-- Reads `item.get(item_type, {}).get('ids', {})` — the identifier mapping of
the entry's per-category descriptor, defaulting to empty. -/
def getSimklIds (item : SimklItem) (item_type : String) : IdsMap :=
  (dget item.cats item_type).getD []

/-- The destination's identifier object: `imdb` (string, copied verbatim),
`tmdb` (coerced integer), `slug` (copied verbatim). -/
structure TraktIds where
  imdb : Option Value
  tmdb : Option Int
  slug : Option Value
deriving DecidableEq, Repr

/-- Python `if not ids:` — the dict is falsy iff it has no entries. -/
def idsEmpty (ids : TraktIds) : Bool :=
  ids.imdb.isNone && ids.tmdb.isNone && ids.slug.isNone

/-- One record to be submitted to the destination service:
`{ids: ..., watched_at?: ...}`. -/
structure TraktItem where
  ids : TraktIds
  watched_at : Option String
deriving DecidableEq, Repr

/-- Lines 120–125 of `transform_to_trakt`: build the destination `ids`
dict from a source identifier mapping.  `imdb` is copied verbatim when
present and truthy, `tmdb` is coerced with `int` when present and truthy
(the coercion error propagates), `slug` is copied verbatim whenever the
key exists.  -/
def build_ids (simkl_ids : IdsMap) : Except String TraktIds :=
  let imdb : Option Value :=
    match dget simkl_ids "imdb" with
    | some v => if truthy v then some v else none
    | none => none
  let slug : Option Value := dget simkl_ids "slug"
  match dget simkl_ids "tmdb" with
  | some v =>
    if truthy v then
      (pyInt v).map (fun n => ⟨imdb, some n, slug⟩)
    else
      .ok ⟨imdb, none, slug⟩
  | none => .ok ⟨imdb, none, slug⟩

/-- Embeds `transform_to_trakt(simkl_items, item_type)` (lines 111–149).  For each
entry: build the `ids` dict (a tmdb coercion error propagates out of the
whole call, as in the Python, which has no per-record handler); skip the
entry if `ids` is empty; for `movies`, or for `shows`/`anime`, emit a
record with the optional `watched_at`; for any other `item_type` neither
branch matches and nothing is appended. -/
def transform_to_trakt : List SimklItem → String → Except String (List TraktItem)
  | [], _ => .ok []
  | item :: rest, item_type =>
    match build_ids (getSimklIds item item_type) with
    | .error e => .error e
    | .ok ids =>
      if idsEmpty ids then
        transform_to_trakt rest item_type
      else if item_type = "movies" then
        (transform_to_trakt rest item_type).map
          (fun t => ⟨ids, item.last_watched_at⟩ :: t)
      else if item_type = "shows" ∨ item_type = "anime" then
        (transform_to_trakt rest item_type).map
          (fun t => ⟨ids, item.last_watched_at⟩ :: t)
      else
        transform_to_trakt rest item_type

/-- Holds when the entry offers no usable identifier for the given
category: no truthy `imdb`, no truthy `tmdb`, and no `slug` key at all. -/
def noUsableId (item : SimklItem) (cat : String) : Bool :=
  (match dget (getSimklIds item cat) "imdb" with
   | some v => !truthy v
   | none => true)
  && (match dget (getSimklIds item cat) "tmdb" with
   | some v => !truthy v
   | none => true)
  && (dget (getSimklIds item cat) "slug").isNone

/-- Holds when `int` applied to the value raises. -/
def coercionFails (v : Value) : Bool :=
  match pyInt v with
  | .ok _ => false
  | .error _ => true

/-- Holds when the entry's category descriptor carries a truthy `tmdb`
identifier on which the `int` coercion raises. -/
def hasBadTmdb (item : SimklItem) (cat : String) : Bool :=
  match dget (getSimklIds item cat) "tmdb" with
  | some v => truthy v && coercionFails v
  | none => false

/-! ## Batch uploader (`upload_to_trakt`, lines 152–182) -/

/-- Constant `BATCH_SIZE = 50` (line 167). -/
def BATCH_SIZE : Nat := 50

/-- The `added` counts of a successful destination response
(`res_json.get('added', {})`, each count read with a default of 0, so a
plain triple of integers suffices). -/
structure Added where
  movies : Int
  shows : Int
  episodes : Int
deriving DecidableEq, Repr

/-- The JSON body of one history-sync submission:
`{"movies": ..., "shows": ...}`. -/
structure Payload where
  movies : List TraktItem
  shows : List TraktItem
deriving DecidableEq, Repr

/-- Lines 170–173: the payload places the batch under `movies` when
`data_type == 'movies'`, under `shows` when it is `'shows'` or `'anime'`,
and the unused key is the empty list. -/
def mkPayload (data_type : String) (batch : List TraktItem) : Payload :=
  { movies := if data_type = "movies" then batch else []
    shows := if data_type = "shows" ∨ data_type = "anime" then batch else [] }

/-- One observable effect of `upload_to_trakt`, in program order:
the "nothing to upload" report, an HTTP submission of one batch (the batch
slice together with the payload built from it), the per-batch success
report with the server's added counts, the per-batch caught-error report,
or the rate-limit sleep (seconds). -/
inductive UploadEvent where
  | reportNoItems : UploadEvent
  | submit : List TraktItem → Payload → UploadEvent
  | reportAdded : Nat → Added → UploadEvent
  | reportError : Nat → UploadEvent
  | sleep : Nat → UploadEvent
deriving DecidableEq, Repr

/-- The effects of one iteration of the upload loop for batch number `k`
(lines 169–182): submit the slice, report the outcome — the `try/except`
catches a failed submission and reports it instead of re-raising — then
`time.sleep(1)`. -/
def uploadBatchEvents (res : Nat → Except String Added) (data_type : String)
    (k : Nat) (batch : List TraktItem) : List UploadEvent :=
  [UploadEvent.submit batch (mkPayload data_type batch),
   match res k with
   | .ok a => UploadEvent.reportAdded k a
   | .error _ => UploadEvent.reportError k,
   UploadEvent.sleep 1]

/-- The loop `for i in range(0, len(items), BATCH_SIZE)` of lines 168–182,
processing `items[i:]` with `k = i / BATCH_SIZE`.  `fuel` bounds the
number of iterations; it is called with `fuel = items.length`, which
suffices because every iteration consumes at least one item. -/
def uploadGo (res : Nat → Except String Added) (data_type : String) :
    Nat → Nat → List TraktItem → List UploadEvent
  | _, _, [] => []
  | 0, _, _ => []
  | fuel + 1, k, l =>
    uploadBatchEvents res data_type k (l.take BATCH_SIZE)
      ++ uploadGo res data_type fuel (k + 1) (l.drop BATCH_SIZE)

/-- Embeds `upload_to_trakt(token, data_type, items)` (lines 152–182) as a trace
of effects.  An empty record list only reports and returns (lines
153–155); otherwise the batches are submitted in order. -/
def upload_to_trakt (res : Nat → Except String Added) (data_type : String)
    (items : List TraktItem) : List UploadEvent :=
  if items.isEmpty then [UploadEvent.reportNoItems]
  else uploadGo res data_type items.length 0 items

/-- The slices `l[0:B], l[B:2B], ...` taken by the upload loop, with the
same fuel discipline as `uploadGo`. -/
def chunksGo : Nat → List TraktItem → List (List TraktItem)
  | _, [] => []
  | 0, _ => []
  | fuel + 1, l => l.take BATCH_SIZE :: chunksGo fuel (l.drop BATCH_SIZE)

/-- The sequence of batches the upload loop slices out of `items`. -/
def chunksB (items : List TraktItem) : List (List TraktItem) :=
  chunksGo items.length items

/-- The batches actually submitted in a trace, in order. -/
def submitsOf (evs : List UploadEvent) : List (List TraktItem) :=
  evs.filterMap (fun e =>
    match e with
    | .submit b _ => some b
    | _ => none)

/-- The fixed 1-second cooldown event. -/
def isCooldown : UploadEvent → Bool
  | .sleep n => n = 1
  | _ => false

/-- Checks that in a trace every submission is followed by a cooldown
sleep before any further submission (and after the final one).  The flag
remembers whether a submission is still awaiting its cooldown. -/
def cooldownSeparated : Bool → List UploadEvent → Bool
  | awaiting, [] => !awaiting
  | awaiting, e :: r =>
    match e with
    | .submit _ _ => !awaiting && cooldownSeparated true r
    | _ => if isCooldown e then cooldownSeparated false r
           else cooldownSeparated awaiting r

/-! ## Export flattener (`process_shows`, lines 108–155 of
`export_simkl_to_csv.py`) -/

/-- One watched-episode object: `{season, episode, watched_at}` as read by
`ep.get(...)` (each key optional). -/
structure EpisodeRec where
  season : Option Int
  episode : Option Int
  watched_at : Option String
deriving DecidableEq, Repr

/-- The show/anime descriptor inside a container entry: display metadata
plus the identifier mapping.  A present-but-empty descriptor dict is falsy
in Python exactly like an absent one, so both are modelled as `none` at
the container level. -/
structure ShowDesc where
  title : Option String
  year : Option Int
  ids : IdsMap
deriving DecidableEq, Repr

/-- One container entry of the shows/anime list: an optional `show` or
`anime` descriptor plus the optional `episodes` array (absent is read back
as `[]` by `item.get('episodes', [])`, so both are the empty list). -/
structure ShowContainer where
  showD : Option ShowDesc
  animeD : Option ShowDesc
  episodes : List EpisodeRec
deriving DecidableEq, Repr

/-- One output row of the export (columns `Type, Title, Year, Season,
Episode, WatchedAt, IMDB, TMDB, TVDB, SimklID`). -/
structure CsvRow where
  rtype : String
  title : Option String
  year : Option Int
  season : Option Int
  episode : Option Int
  watchedAt : Option String
  imdb : Option Value
  tmdb : Option Value
  tvdb : Option Value
  simklID : Option Value
deriving DecidableEq, Repr

/-- The row appended for one episode of one show (lines 143–154). -/
def mkEpisodeRow (s : ShowDesc) (ep : EpisodeRec) : CsvRow :=
  { rtype := "episode"
    title := s.title
    year := s.year
    season := ep.season
    episode := ep.episode
    watchedAt := ep.watched_at
    imdb := dget s.ids "imdb"
    tmdb := dget s.ids "tmdb"
    tvdb := dget s.ids "tvdb"
    simklID := dget s.ids "simkl" }

/-- The loop body of `process_shows` (lines 122–155): for each container,
take `item.get('show') or item.get('anime')`; skip if neither is present;
skip if the episode list is empty; otherwise append one row per episode. -/
def processShowItems : List ShowContainer → List CsvRow
  | [] => []
  | item :: rest =>
    match (item.showD).orElse (fun _ => item.animeD) with
    | none => processShowItems rest
    | some s =>
      if item.episodes.isEmpty then
        processShowItems rest
      else
        item.episodes.map (mkEpisodeRow s) ++ processShowItems rest

/-- Embeds `process_shows(shows_data, type_label)` (lines 108–155): select the
items list — `shows_data.get(type_label + 's', [])`, overridden to
`shows_data.get('anime', [])` when the label is `anime` — then flatten. -/
def process_shows (shows_data : List (String × List ShowContainer))
    (type_label : String) : List CsvRow :=
  let items_list := (dget shows_data (type_label ++ "s")).getD []
  let items_list :=
    if type_label = "anime" then (dget shows_data "anime").getD []
    else items_list
  processShowItems items_list

/-! ## Transformer theorems -/

lemma imdbField_eq_some (o : Option Value) (v : Value) :
    (match o with
     | some w => if truthy w then some w else none
     | none => (none : Option Value)) = some v
    ↔ (o = some v ∧ truthy v = true) := by
  cases o with
  | none => simp
  | some w =>
    by_cases h : truthy w
    · simp [h]
      rintro rfl
      exact h
    · simp [h]
      rintro rfl
      simp [h]

/-- Characterisation of a successful `build_ids` result. -/
lemma build_ids_ok (sids : IdsMap) (ids : TraktIds)
    (h : build_ids sids = .ok ids) :
    (∀ v, ids.imdb = some v ↔ (dget sids "imdb" = some v ∧ truthy v = true))
    ∧ (∀ v, dget sids "tmdb" = some v → truthy v = true →
        ∃ n, pyInt v = Except.ok n ∧ ids.tmdb = some n)
    ∧ (ids.tmdb = none ↔ ∀ v, dget sids "tmdb" = some v → truthy v = false)
    ∧ ids.slug = dget sids "slug" := by
  unfold build_ids at h
  rcases htm : dget sids "tmdb" with _ | v
  · rw [htm] at h
    simp only [Except.ok.injEq] at h
    subst h
    refine ⟨fun v => imdbField_eq_some _ v, ?_, ?_, rfl⟩
    · intro v hv
      exact absurd hv (by simp)
    · simp
  · rw [htm] at h
    dsimp only at h
    by_cases ht : truthy v
    · rw [if_pos ht] at h
      rcases hp : pyInt v with e | n
      · rw [hp] at h
        simp [Except.map] at h
      · rw [hp] at h
        simp only [Except.map, Except.ok.injEq] at h
        subst h
        refine ⟨fun v => imdbField_eq_some _ v, ?_, ?_, rfl⟩
        · intro w hw _
          cases hw
          exact ⟨n, hp, rfl⟩
        · simp
          exact ht
    · rw [if_neg ht] at h
      simp only [Except.ok.injEq] at h
      subst h
      refine ⟨fun v => imdbField_eq_some _ v, ?_, ?_, rfl⟩
      · intro w hw htw
        cases hw
        exact absurd htw ht
      · simp
        exact Bool.eq_false_iff.mpr ht

/-- A usable-identifier-free entry makes `build_ids` return the empty
identifier dict. -/
lemma build_ids_noUsable (item : SimklItem) (cat : String)
    (h : noUsableId item cat = true) :
    build_ids (getSimklIds item cat) = .ok ⟨none, none, none⟩ := by
  unfold noUsableId at h
  simp only [Bool.and_eq_true] at h
  obtain ⟨⟨h1, h2⟩, h3⟩ := h
  have hs : dget (getSimklIds item cat) "slug" = none :=
    Option.isNone_iff_eq_none.mp h3
  unfold build_ids
  rcases htm : dget (getSimklIds item cat) "tmdb" with _ | v
  · rw [hs]
    rcases him : dget (getSimklIds item cat) "imdb" with _ | w
    · rfl
    · rw [him] at h1
      simp at h1
      simp [h1]
  · rw [htm] at h2
    simp at h2
    rw [hs]
    simp only [h2, if_false]
    rcases him : dget (getSimklIds item cat) "imdb" with _ | w
    · rfl
    · rw [him] at h1
      simp at h1
      simp [h1]

/-- An entry with no usable identifier is silently skipped: transforming
`item :: rest` equals transforming `rest`. -/
lemma transform_skip (item : SimklItem) (rest : List SimklItem) (cat : String)
    (h : noUsableId item cat = true) :
    transform_to_trakt (item :: rest) cat = transform_to_trakt rest cat := by
  simp only [transform_to_trakt, build_ids_noUsable item cat h]
  simp [idsEmpty]

/-- Every record in a successful transform output has a nonempty
identifier dict. -/
lemma transform_mem_nonempty (cat : String) :
    ∀ (items : List SimklItem) (out : List TraktItem),
      transform_to_trakt items cat = .ok out →
      ∀ t ∈ out, idsEmpty t.ids = false := by
  intro items
  induction items with
  | nil =>
    intro out h t ht
    simp only [transform_to_trakt, Except.ok.injEq] at h
    subst h
    simp at ht
  | cons item rest ih =>
    intro out h t ht
    simp only [transform_to_trakt] at h
    rcases hb : build_ids (getSimklIds item cat) with e | ids
    · rw [hb] at h
      simp at h
    · rw [hb] at h
      dsimp only at h
      by_cases he : idsEmpty ids
      · rw [if_pos he] at h
        exact ih out h t ht
      · rw [if_neg he] at h
        by_cases hm : cat = "movies"
        · rw [if_pos hm] at h
          rcases hr : transform_to_trakt rest cat with e | l
          · rw [hr] at h
            simp [Except.map] at h
          · rw [hr] at h
            simp only [Except.map, Except.ok.injEq] at h
            subst h
            rcases List.mem_cons.mp ht with rfl | ht'
            · exact Bool.eq_false_iff.mpr he
            · exact ih l hr t ht'
        · rw [if_neg hm] at h
          by_cases hsa : cat = "shows" ∨ cat = "anime"
          · rw [if_pos hsa] at h
            rcases hr : transform_to_trakt rest cat with e | l
            · rw [hr] at h
              simp [Except.map] at h
            · rw [hr] at h
              simp only [Except.map, Except.ok.injEq] at h
              subst h
              rcases List.mem_cons.mp ht with rfl | ht'
              · exact Bool.eq_false_iff.mpr he
              · exact ih l hr t ht'
          · rw [if_neg hsa] at h
            exact ih out h t ht

/-! ## Claim theorems — transformer -/

/-- C1: for category movie (`item_type = "movies"`), transforming
`[{ids:{imdb:"tt1"}}, {ids:{}}, {ids:{tmdb:"42"}}]` yields exactly
`[{ids:{imdb:"tt1"}}, {ids:{tmdb:42}}]`: the first and third entries are
emitted in order, the middle entry is dropped, and the tmdb value is
coerced to integer. -/
theorem c1_transform_movie_example :
    transform_to_trakt
      [⟨[("movies", [("imdb", Value.str "tt1")])], none⟩,
       ⟨[("movies", [])], none⟩,
       ⟨[("movies", [("tmdb", Value.str "42")])], none⟩] "movies"
    = .ok [⟨⟨some (Value.str "tt1"), none, none⟩, none⟩,
           ⟨⟨none, some 42, none⟩, none⟩] := rfl

/-- C2: the destination identifier dict built per entry contains `imdb`
(copied verbatim) exactly when the source `imdb` is present and truthy,
`tmdb` (coerced to integer) exactly when the source `tmdb` is present and
truthy, and `slug` (copied verbatim) exactly when the `slug` key exists,
even for a falsy slug value. -/
theorem c2_identifier_selection (item : SimklItem) (cat : String)
    (ids : TraktIds) (h : build_ids (getSimklIds item cat) = .ok ids) :
    (∀ v, ids.imdb = some v ↔
      (dget (getSimklIds item cat) "imdb" = some v ∧ truthy v = true))
    ∧ (∀ v, dget (getSimklIds item cat) "tmdb" = some v → truthy v = true →
        ∃ n, pyInt v = Except.ok n ∧ ids.tmdb = some n)
    ∧ (ids.tmdb = none ↔
        ∀ v, dget (getSimklIds item cat) "tmdb" = some v → truthy v = false)
    ∧ ids.slug = dget (getSimklIds item cat) "slug" :=
  build_ids_ok (getSimklIds item cat) ids h

/-- A concrete entry exercising C2: truthy imdb, truthy numeric tmdb, and
a falsy (empty-string) slug that is still copied. -/
def w2item : SimklItem :=
  ⟨[("movies", [("imdb", Value.str "tt9"), ("tmdb", Value.str "7"),
                ("slug", Value.str "")])], none⟩

theorem c2_identifier_selection_witness :
    build_ids (getSimklIds w2item "movies")
      = .ok ⟨some (Value.str "tt9"), some 7, some (Value.str "")⟩
    ∧ (⟨some (Value.str "tt9"), some 7, some (Value.str "")⟩ : TraktIds).slug
      = dget (getSimklIds w2item "movies") "slug" :=
  ⟨rfl, (c2_identifier_selection w2item "movies" _ rfl).2.2.2⟩

/-- C3: no emitted DestinationRecord has an empty identifier dict, and an
entry with no truthy imdb, no truthy tmdb and no slug key is silently
skipped (transforming it with any tail equals transforming the tail, so
no error and no placeholder). -/
theorem c3_no_empty_ids (cat : String) :
    (∀ (items : List SimklItem) (out : List TraktItem),
      transform_to_trakt items cat = .ok out →
      ∀ t ∈ out, idsEmpty t.ids = false)
    ∧ (∀ (item : SimklItem) (rest : List SimklItem),
      noUsableId item cat = true →
      transform_to_trakt (item :: rest) cat = transform_to_trakt rest cat) :=
  ⟨transform_mem_nonempty cat,
   fun item rest h => transform_skip item rest cat h⟩

/-- Entries exercising C3: one with only a falsy imdb and a falsy tmdb
(and no slug key), one with a truthy imdb. -/
def w3skipped : SimklItem :=
  ⟨[("movies", [("imdb", Value.str ""), ("tmdb", Value.int 0)])], none⟩

def w3kept : SimklItem :=
  ⟨[("movies", [("imdb", Value.str "tt1")])], none⟩

theorem c3_no_empty_ids_witness :
    (transform_to_trakt [w3kept] "movies"
      = .ok [⟨⟨some (Value.str "tt1"), none, none⟩, none⟩])
    ∧ ((⟨⟨some (Value.str "tt1"), none, none⟩, none⟩ : TraktItem)
        ∈ [(⟨⟨some (Value.str "tt1"), none, none⟩, none⟩ : TraktItem)])
    ∧ idsEmpty (⟨⟨some (Value.str "tt1"), none, none⟩, none⟩ : TraktItem).ids
      = false
    ∧ noUsableId w3skipped "movies" = true
    ∧ transform_to_trakt [w3skipped, w3kept] "movies"
      = transform_to_trakt [w3kept] "movies" :=
  ⟨rfl, by decide,
   (c3_no_empty_ids "movies").1 [w3kept] _ rfl _ (by decide),
   by decide,
   (c3_no_empty_ids "movies").2 w3skipped [w3kept] (by decide)⟩

/-- If transforming the tail fails, transforming the longer list fails
too: the error is not confined to one record. -/
lemma transform_cons_error (item : SimklItem) (rest : List SimklItem)
    (cat : String) (e : String)
    (h : transform_to_trakt rest cat = .error e) :
    ∃ e', transform_to_trakt (item :: rest) cat = .error e' := by
  simp only [transform_to_trakt]
  rcases hb : build_ids (getSimklIds item cat) with e' | ids
  · exact ⟨e', rfl⟩
  · by_cases he : idsEmpty ids
    · exact ⟨e, by dsimp only; rw [if_pos he]; exact h⟩
    · by_cases hm : cat = "movies"
      · exact ⟨e, by dsimp only; rw [if_neg he, if_pos hm, h]; rfl⟩
      · by_cases hsa : cat = "shows" ∨ cat = "anime"
        · exact ⟨e, by dsimp only; rw [if_neg he, if_neg hm, if_pos hsa, h]; rfl⟩
        · exact ⟨e, by dsimp only; rw [if_neg he, if_neg hm, if_neg hsa]; exact h⟩

/-- A leading entry with a truthy non-coercible tmdb makes the whole
transform call fail. -/
lemma transform_cons_bad (item : SimklItem) (rest : List SimklItem)
    (cat : String) (h : hasBadTmdb item cat = true) :
    ∃ e, transform_to_trakt (item :: rest) cat = .error e := by
  unfold hasBadTmdb at h
  rcases htm : dget (getSimklIds item cat) "tmdb" with _ | v
  · rw [htm] at h
    simp at h
  · rw [htm] at h
    simp only [Bool.and_eq_true] at h
    obtain ⟨ht, hc⟩ := h
    unfold coercionFails at hc
    rcases hp : pyInt v with e | n
    · have hb : build_ids (getSimklIds item cat) = .error e := by
        unfold build_ids
        rw [htm]
        dsimp only
        rw [if_pos ht, hp]
        rfl
      refine ⟨e, ?_⟩
      simp only [transform_to_trakt, hb]
    · rw [hp] at hc
      simp at hc

def c4Items : List SimklItem :=
  [⟨[("movies", [("tmdb", Value.str "abc")])], none⟩,
   ⟨[("movies", [("imdb", Value.str "tt2")])], none⟩]

/-- C4 counterexample: with a first entry whose truthy tmdb `"abc"` fails
integer coercion and a second entry with a good imdb, the claim predicts
that only the first record is skipped and the second is still yielded; in
fact the whole transform call fails with the coercion error and no record
is yielded at all. -/
theorem c4_counterexample :
    transform_to_trakt c4Items "movies"
      = Except.error "invalid literal for int() with base 10: abc"
    ∧ transform_to_trakt c4Items "movies"
      ≠ Except.ok [⟨⟨some (Value.str "tt2"), none, none⟩, none⟩] :=
  ⟨rfl, fun h => Except.noConfusion h⟩

/-- C4 amended: a tmdb coercion failure is not record-fatal — it aborts
the entire transform call: whenever some entry of the sequence carries a
truthy tmdb on which coercion fails, the whole call returns the error and
no DestinationRecord is yielded for any entry.  (In the pipeline the
error is caught per category.) -/
theorem c4_amended (items : List SimklItem) (cat : String)
    (h : ∃ item ∈ items, hasBadTmdb item cat = true) :
    ∃ e, transform_to_trakt items cat = Except.error e := by
  induction items with
  | nil => simp at h
  | cons item rest ih =>
    rcases h with ⟨it, hmem, hbad⟩
    rcases List.mem_cons.mp hmem with rfl | hmem'
    · exact transform_cons_bad it rest cat hbad
    · rcases ih ⟨it, hmem', hbad⟩ with ⟨e, he⟩
      exact transform_cons_error item rest cat e he

theorem c4_amended_witness :
    (∃ item ∈ c4Items, hasBadTmdb item "movies" = true)
    ∧ ∃ e, transform_to_trakt c4Items "movies" = Except.error e :=
  ⟨by decide, c4_amended c4Items "movies" (by decide)⟩

def c10Items : List SimklItem :=
  [⟨[("books", [("tmdb", Value.str "xx")])], none⟩]

/-- C10 counterexample: for the unrecognized category `"books"` and an
input whose `books` descriptor carries the truthy non-numeric tmdb
`"xx"`, transform does not return the empty sequence — the coercion
error is raised (it happens before the category branches), so the call
fails instead. -/
theorem c10_counterexample :
    transform_to_trakt c10Items "books"
      = Except.error "invalid literal for int() with base 10: xx"
    ∧ transform_to_trakt c10Items "books" ≠ Except.ok [] :=
  ⟨rfl, fun h => Except.noConfusion h⟩

/-- C10 amended: for every category other than `"movies"`, `"shows"` and
`"anime"`, entries are iterated but never appended, so whenever transform
returns successfully it returns the empty sequence — even entries with
valid identifiers are silently dropped.  (A truthy non-coercible tmdb
still raises, so a successful return is not guaranteed.) -/
theorem c10_amended (cat : String) (items : List SimklItem)
    (out : List TraktItem)
    (h1 : cat ≠ "movies") (h2 : cat ≠ "shows") (h3 : cat ≠ "anime")
    (h : transform_to_trakt items cat = .ok out) : out = [] := by
  induction items with
  | nil =>
    simp only [transform_to_trakt, Except.ok.injEq] at h
    exact h.symm
  | cons item rest ih =>
    simp only [transform_to_trakt] at h
    rcases hb : build_ids (getSimklIds item cat) with e | ids
    · rw [hb] at h
      simp at h
    · rw [hb] at h
      dsimp only at h
      by_cases he : idsEmpty ids
      · rw [if_pos he] at h
        exact ih h
      · rw [if_neg he, if_neg h1,
          if_neg (by tauto : ¬(cat = "shows" ∨ cat = "anime"))] at h
        exact ih h

def w10items : List SimklItem :=
  [⟨[("books", [("imdb", Value.str "tt1")])], none⟩]

theorem c10_amended_witness :
    ("books" : String) ≠ "movies" ∧ ("books" : String) ≠ "shows"
    ∧ ("books" : String) ≠ "anime"
    ∧ transform_to_trakt w10items "books" = Except.ok []
    ∧ ([] : List TraktItem) = [] :=
  ⟨by decide, by decide, by decide, rfl,
   c10_amended "books" w10items [] (by decide) (by decide) (by decide) rfl⟩

/-! ## Uploader lemmas -/

/-- The upload loop submits exactly the slices `chunksGo` describes,
whatever the per-batch outcomes are. -/
lemma submitsOf_uploadGo (res : Nat → Except String Added) (dt : String) :
    ∀ (fuel k : Nat) (l : List TraktItem),
      submitsOf (uploadGo res dt fuel k l) = chunksGo fuel l := by
  intro fuel
  induction fuel with
  | zero =>
    intro k l
    cases l <;> simp [uploadGo, chunksGo, submitsOf]
  | succ n ih =>
    intro k l
    cases l with
    | nil => simp [uploadGo, chunksGo, submitsOf]
    | cons x xs =>
      simp only [uploadGo, chunksGo, uploadBatchEvents]
      rcases hr : res k with e | a <;>
        (simp [submitsOf, List.filterMap_append]; exact ih _ _)

/-- Applying `submitsOf` to a whole upload call yields the batch slices. -/
lemma submitsOf_upload (res : Nat → Except String Added) (dt : String)
    (items : List TraktItem) :
    submitsOf (upload_to_trakt res dt items) = chunksB items := by
  unfold upload_to_trakt chunksB
  by_cases hi : items.isEmpty
  · rw [if_pos hi]
    have : items = [] := List.isEmpty_iff.mp hi
    subst this
    simp [chunksGo, submitsOf]
  · rw [if_neg hi]
    exact submitsOf_uploadGo res dt items.length 0 items

/-- Concatenating the slices gives back the record list. -/
lemma chunksGo_flatten :
    ∀ (fuel : Nat) (l : List TraktItem), l.length ≤ fuel →
      (chunksGo fuel l).flatten = l := by
  intro fuel
  induction fuel with
  | zero =>
    intro l hl
    have : l = [] := List.length_eq_zero.mp (Nat.le_zero.mp hl)
    subst this
    simp [chunksGo]
  | succ n ih =>
    intro l hl
    cases l with
    | nil => simp [chunksGo]
    | cons x xs =>
      simp only [chunksGo, List.flatten_cons]
      rw [ih]
      · exact List.take_append_drop _ _
      · simp only [List.length_drop, List.length_cons]
        simp only [List.length_cons] at hl
        simp [BATCH_SIZE]
        omega

/-- The number of slices is `⌈length / BATCH_SIZE⌉`. -/
lemma chunksGo_length :
    ∀ (fuel : Nat) (l : List TraktItem), l.length ≤ fuel →
      (chunksGo fuel l).length = (l.length + (BATCH_SIZE - 1)) / BATCH_SIZE := by
  intro fuel
  induction fuel with
  | zero =>
    intro l hl
    have : l = [] := List.length_eq_zero.mp (Nat.le_zero.mp hl)
    subst this
    simp [chunksGo, BATCH_SIZE]
  | succ n ih =>
    intro l hl
    cases l with
    | nil => simp [chunksGo, BATCH_SIZE]
    | cons x xs =>
      simp only [chunksGo, List.length_cons]
      rw [ih]
      · simp only [List.length_drop, List.length_cons]
        simp only [BATCH_SIZE]
        omega
      · simp only [List.length_drop, List.length_cons]
        simp only [List.length_cons] at hl
        simp [BATCH_SIZE]
        omega

/-- Every slice is nonempty and holds at most `BATCH_SIZE` records. -/
lemma chunksGo_mem :
    ∀ (fuel : Nat) (l : List TraktItem) (b : List TraktItem),
      l.length ≤ fuel → b ∈ chunksGo fuel l →
      b ≠ [] ∧ b.length ≤ BATCH_SIZE := by
  intro fuel
  induction fuel with
  | zero =>
    intro l b hl hb
    have : l = [] := List.length_eq_zero.mp (Nat.le_zero.mp hl)
    subst this
    simp [chunksGo] at hb
  | succ n ih =>
    intro l b hl hb
    cases l with
    | nil => simp [chunksGo] at hb
    | cons x xs =>
      simp only [chunksGo, List.mem_cons] at hb
      rcases hb with rfl | hb
      · constructor
        · simp [BATCH_SIZE]
        · exact List.length_take_le _ _
      · refine ih _ b ?_ hb
        simp only [List.length_drop, List.length_cons]
        simp only [List.length_cons] at hl
        simp [BATCH_SIZE]
        omega

/-- A failing batch `k0 + j` still has its caught-error report in the
trace. -/
lemma reportError_mem_uploadGo (res : Nat → Except String Added)
    (dt : String) :
    ∀ (fuel k0 : Nat) (l : List TraktItem) (j : Nat) (e : String),
      j < (chunksGo fuel l).length → res (k0 + j) = .error e →
      UploadEvent.reportError (k0 + j) ∈ uploadGo res dt fuel k0 l := by
  intro fuel
  induction fuel with
  | zero =>
    intro k0 l j e hj _
    cases l <;> simp [chunksGo] at hj
  | succ n ih =>
    intro k0 l j e hj he
    cases l with
    | nil => simp [chunksGo] at hj
    | cons x xs =>
      simp only [chunksGo, List.length_cons] at hj
      cases j with
      | zero =>
        simp only [Nat.add_zero] at he ⊢
        simp [uploadGo, uploadBatchEvents, he]
      | succ j' =>
        have hk : k0 + (j' + 1) = (k0 + 1) + j' := by omega
        rw [hk] at he ⊢
        simp only [uploadGo]
        apply List.mem_append_right
        exact ih (k0 + 1) _ j' e (by omega) he

/-- Every submitted payload in the trace is the one `mkPayload` builds
from the submitted batch. -/
lemma submit_mem_uploadGo (res : Nat → Except String Added) (dt : String) :
    ∀ (fuel k : Nat) (l b : List TraktItem) (p : Payload),
      UploadEvent.submit b p ∈ uploadGo res dt fuel k l →
      p = mkPayload dt b := by
  intro fuel
  induction fuel with
  | zero =>
    intro k l b p h
    cases l <;> simp [uploadGo] at h
  | succ n ih =>
    intro k l b p h
    cases l with
    | nil => simp [uploadGo] at h
    | cons x xs =>
      simp only [uploadGo, uploadBatchEvents, List.mem_append] at h
      rcases h with h | h
      · rcases hr : res k with e | a <;>
          (rw [hr] at h
           simp only [List.mem_cons, List.mem_singleton,
             List.not_mem_nil] at h
           rcases h with h | h | h <;>
             first
               | (obtain ⟨rfl, rfl⟩ := UploadEvent.submit.inj h; rfl)
               | exact absurd h (by simp))
      · exact ih _ _ _ _ h

/-! ## Claim theorems — uploader -/

/-- C5: for N records and the fixed batch size `BATCH_SIZE = 50`, upload
issues exactly `⌈N / 50⌉` submissions, each batch a nonempty contiguous
slice of at most 50 records, and the batches concatenate back to the
whole record list in order; an empty record list yields zero
submissions. -/
theorem c5_upload_batching (res : Nat → Except String Added) (dt : String)
    (items : List TraktItem) :
    submitsOf (upload_to_trakt res dt items) = chunksB items
    ∧ (chunksB items).length = (items.length + (BATCH_SIZE - 1)) / BATCH_SIZE
    ∧ (∀ b ∈ chunksB items, b ≠ [] ∧ b.length ≤ BATCH_SIZE)
    ∧ (chunksB items).flatten = items :=
  ⟨submitsOf_upload res dt items,
   chunksGo_length items.length items le_rfl,
   fun b hb => chunksGo_mem items.length items b le_rfl hb,
   chunksGo_flatten items.length items le_rfl⟩

def wUploadItem : TraktItem := ⟨⟨none, some 1, none⟩, none⟩

def wUploadRes : Nat → Except String Added := fun _ => .ok ⟨0, 0, 0⟩

theorem c5_upload_batching_witness :
    [wUploadItem] ∈ chunksB (List.replicate 51 wUploadItem)
    ∧ ([wUploadItem] ≠ []
       ∧ ([wUploadItem] : List TraktItem).length ≤ BATCH_SIZE) :=
  ⟨by decide,
   (c5_upload_batching wUploadRes "movies"
       (List.replicate 51 wUploadItem)).2.2.1 [wUploadItem] (by decide)⟩

/-- C6: if the submission of batch `k` fails (the oracle returns an
error), the error is reported in the trace and the set of submitted
batches is still all of `chunksB items` — later batches are submitted and
nothing propagates out of the upload call. -/
theorem c6_batch_failure_isolation (res : Nat → Except String Added)
    (dt : String) (items : List TraktItem) (k : Nat) (e : String)
    (hk : k < (chunksB items).length) (he : res k = .error e) :
    UploadEvent.reportError k ∈ upload_to_trakt res dt items
    ∧ submitsOf (upload_to_trakt res dt items) = chunksB items := by
  constructor
  · unfold upload_to_trakt
    by_cases hi : items.isEmpty
    · exfalso
      have : items = [] := List.isEmpty_iff.mp hi
      subst this
      simp [chunksB, chunksGo] at hk
    · rw [if_neg hi]
      have h0 : (0 : Nat) + k = k := by omega
      have := reportError_mem_uploadGo res dt items.length 0 items k e
        (by simpa [chunksB] using hk) (by rw [h0]; exact he)
      rwa [h0] at this
  · exact submitsOf_upload res dt items

def w6res : Nat → Except String Added :=
  fun k => if k = 0 then .error "server unavailable" else .ok ⟨0, 0, 0⟩

theorem c6_batch_failure_isolation_witness :
    0 < (chunksB (List.replicate 51 wUploadItem)).length
    ∧ w6res 0 = .error "server unavailable"
    ∧ UploadEvent.reportError 0
        ∈ upload_to_trakt w6res "movies" (List.replicate 51 wUploadItem)
    ∧ submitsOf (upload_to_trakt w6res "movies" (List.replicate 51 wUploadItem))
        = chunksB (List.replicate 51 wUploadItem) :=
  ⟨by decide, rfl,
   (c6_batch_failure_isolation w6res "movies" (List.replicate 51 wUploadItem)
      0 "server unavailable" (by decide) rfl).1,
   (c6_batch_failure_isolation w6res "movies" (List.replicate 51 wUploadItem)
      0 "server unavailable" (by decide) rfl).2⟩

/-- C7: every submitted payload places the batch under the `movies` key
when the kind is `movies`, and under the `shows` key when the kind is
`shows` or `anime`, with the unused key the empty list. -/
theorem c7_payload_keys (res : Nat → Except String Added) (dt : String)
    (items : List TraktItem) (b : List TraktItem) (p : Payload)
    (h : UploadEvent.submit b p ∈ upload_to_trakt res dt items) :
    (dt = "movies" → p.movies = b ∧ p.shows = [])
    ∧ ((dt = "shows" ∨ dt = "anime") → p.shows = b ∧ p.movies = []) := by
  have hp : p = mkPayload dt b := by
    unfold upload_to_trakt at h
    by_cases hi : items.isEmpty
    · rw [if_pos hi] at h
      simp at h
    · rw [if_neg hi] at h
      exact submit_mem_uploadGo res dt items.length 0 items b p h
  subst hp
  constructor
  · rintro rfl
    exact ⟨by simp [mkPayload], by simp [mkPayload]⟩
  · rintro (rfl | rfl) <;> exact ⟨by simp [mkPayload], by simp [mkPayload]⟩

theorem c7_payload_keys_witness :
    UploadEvent.submit [wUploadItem] (mkPayload "anime" [wUploadItem])
      ∈ upload_to_trakt wUploadRes "anime" [wUploadItem]
    ∧ (("anime" = "shows" ∨ "anime" = "anime") →
        (mkPayload "anime" [wUploadItem]).shows = [wUploadItem]
        ∧ (mkPayload "anime" [wUploadItem]).movies = []) :=
  ⟨by decide,
   (c7_payload_keys wUploadRes "anime" [wUploadItem] [wUploadItem]
      (mkPayload "anime" [wUploadItem]) (by decide)).2⟩

/-- In the loop trace every submission is followed by the cooldown before
any further submission, for any outcome pattern. -/
lemma cooldown_uploadGo (res : Nat → Except String Added) (dt : String) :
    ∀ (fuel k : Nat) (l : List TraktItem),
      cooldownSeparated false (uploadGo res dt fuel k l) = true := by
  intro fuel
  induction fuel with
  | zero =>
    intro k l
    cases l <;> simp [uploadGo, cooldownSeparated]
  | succ n ih =>
    intro k l
    cases l with
    | nil => simp [uploadGo, cooldownSeparated]
    | cons x xs =>
      simp only [uploadGo, uploadBatchEvents]
      rcases hr : res k with e | a <;>
        simp [cooldownSeparated, isCooldown, ih]

/-- C8: after every batch submission, success or failure alike, the fixed
1-second cooldown occurs before the next submission (and after the last):
the trace of one upload call never has two submissions without a cooldown
between them. -/
theorem c8_cooldown_between_submissions (res : Nat → Except String Added)
    (dt : String) (items : List TraktItem) :
    cooldownSeparated false (upload_to_trakt res dt items) = true := by
  unfold upload_to_trakt
  by_cases hi : items.isEmpty
  · rw [if_pos hi]
    simp [cooldownSeparated, isCooldown]
  · rw [if_neg hi]
    exact cooldown_uploadGo res dt items.length 0 items

/-! ## Claim theorems — export flattener -/

/-- Selecting the `shows` key with label `show` leaves the container
list itself. -/
lemma process_shows_shows (l : List ShowContainer) :
    process_shows [("shows", l)] "show" = processShowItems l := rfl

/-- C9: a container entry carrying a show/anime descriptor and a
non-empty episode list of length k contributes exactly k rows, one per
watched episode, in front of the rows of the remaining entries; an entry
whose episode list is empty (or absent, read back as empty) contributes
no rows at all. -/
theorem c9_process_shows_rows (item : ShowContainer)
    (rest : List ShowContainer) (s : ShowDesc) :
    (item.showD.orElse (fun _ => item.animeD) = some s →
      item.episodes ≠ [] →
      process_shows [("shows", item :: rest)] "show"
        = item.episodes.map (mkEpisodeRow s)
          ++ process_shows [("shows", rest)] "show"
      ∧ (process_shows [("shows", item :: rest)] "show").length
        = item.episodes.length
          + (process_shows [("shows", rest)] "show").length)
    ∧ (item.episodes = [] →
      process_shows [("shows", item :: rest)] "show"
        = process_shows [("shows", rest)] "show") := by
  constructor
  · intro hd hne
    rw [process_shows_shows, process_shows_shows]
    have hstep : processShowItems (item :: rest)
        = item.episodes.map (mkEpisodeRow s) ++ processShowItems rest := by
      simp only [processShowItems, hd]
      rw [if_neg (by simpa [List.isEmpty_iff] using hne)]
    refine ⟨hstep, ?_⟩
    rw [hstep]
    simp
  · intro he
    rw [process_shows_shows, process_shows_shows]
    simp only [processShowItems]
    cases hd : item.showD.orElse (fun _ => item.animeD) with
    | none => rfl
    | some s' =>
      dsimp only
      rw [if_pos (by simp [List.isEmpty_iff, he])]

def w9desc : ShowDesc := ⟨some "Show X", some 2020, [("imdb", Value.str "tt3")]⟩

def w9item : ShowContainer :=
  ⟨some w9desc, none,
   [⟨some 1, some 1, some "2020-01-01"⟩, ⟨some 1, some 2, some "2020-01-02"⟩]⟩

def w9empty : ShowContainer := ⟨some w9desc, none, []⟩

theorem c9_process_shows_rows_witness :
    w9item.showD.orElse (fun _ => w9item.animeD) = some w9desc
    ∧ w9item.episodes ≠ []
    ∧ process_shows [("shows", [w9item])] "show"
        = w9item.episodes.map (mkEpisodeRow w9desc)
          ++ process_shows [("shows", ([] : List ShowContainer))] "show"
    ∧ w9empty.episodes = []
    ∧ process_shows [("shows", [w9empty])] "show"
        = process_shows [("shows", ([] : List ShowContainer))] "show" :=
  ⟨rfl, by decide,
   ((c9_process_shows_rows w9item [] w9desc).1 rfl (by decide)).1,
   rfl,
   (c9_process_shows_rows w9empty [] w9desc).2 rfl⟩
